import Mathlib

/-!
Verification of scripts/check_stock.py.

The script is a single-run stock checker: it fetches a product page, classifies
availability from text patterns, loads a small JSON state record, sends up to two
emails (a restock alert on a transition to available, and a status email gated to
once per 12 hours), and persists the updated record.

The embedding below models:
  * the JSON layer (what `json.loads` / `json.dumps(..., indent=2)` do on the
    state record and on arbitrary text),
  * the classifier `detect_available`,
  * the state store `load_state` / `save_state`,
  * `parse_iso` / `should_send_12h_status` over an integer microsecond timeline,
  * the recipient-list construction of `send_email`, and
  * the orchestration of `main` as a function of one run's inputs, with network
    and SMTP effects supplied as oracles (fetch result, per-send success).

Machine floats do not appear: Python's date arithmetic at microsecond resolution
is exact in the range the script touches, so times are `Int` microseconds since
the Unix epoch. JSON numeric values are modelled as integers plus an opaque token
for non-integer literals; the script itself never writes numbers.
-/

/-! ### Characters used symbolically -/

/-- The double-quote character. -/
def quoteC : Char := Char.ofNat 34

/-- The backslash character. -/
def bslashC : Char := Char.ofNat 92

/-- Newline. -/
def nlC : Char := Char.ofNat 10

/-- Horizontal tab. -/
def tabC : Char := Char.ofNat 9

/-- Carriage return. -/
def crC : Char := Char.ofNat 13

/-- Space. -/
def spC : Char := Char.ofNat 32

/-- Opening curly bracket. -/
def braceL : Char := Char.ofNat 123

/-- Closing curly bracket. -/
def braceR : Char := Char.ofNat 125

/-- Opening square bracket. -/
def brackL : Char := Char.ofNat 91

/-- Closing square bracket. -/
def brackR : Char := Char.ofNat 93

/-! ### JSON values

Mutual inductive (rather than `List`-nested) so that the renderer below is
structurally recursive and hence evaluable by `rfl`/`decide`. `flt` holds the
literal token of a non-integer numeric literal (float, `NaN`, `Infinity`):
the script never writes numbers, so their IEEE value is irrelevant here. -/

mutual
inductive Json where
  | null : Json
  | bool : Bool → Json
  | num : Int → Json
  | flt : String → Json
  | str : String → Json
  | arr : JsonList → Json
  | obj : JsonObj → Json

inductive JsonList where
  | nil : JsonList
  | cons : Json → JsonList → JsonList

inductive JsonObj where
  | nil : JsonObj
  | cons : String → Json → JsonObj → JsonObj
end

deriving instance DecidableEq for Json, JsonList, JsonObj

/-- Python-dict read: first binding of the key, if present. -/
def getKV : JsonObj → String → Option Json
  | .nil, _ => none
  | .cons k' v rest, k => if k' = k then some v else getKV rest k

/-- Python-dict write: replace the value in place if the key is present
(keeping its insertion position), otherwise append a new binding. -/
def setKV : JsonObj → String → Json → JsonObj
  | .nil, k, v => .cons k v .nil
  | .cons k' v' rest, k, v =>
      if k' = k then .cons k' v rest else .cons k' v' (setKV rest k v)

/-- Append an element at the end (list building during array parsing). -/
def jlAppend : JsonList → Json → JsonList
  | .nil, v => .cons v .nil
  | .cons x r, v => .cons x (jlAppend r v)

/-! ### Rendering: `json.dumps(value, indent=2, ensure_ascii=False)` -/

/-- Lower-case hexadecimal digit. -/
def hexDigitChar (n : Nat) : Char :=
  if n < 10 then Char.ofNat (48 + n) else Char.ofNat (97 + n - 10)

/-- Two hexadecimal digits of a byte, high digit first. -/
def hexPair (n : Nat) : List Char := [hexDigitChar (n / 16), hexDigitChar (n % 16)]

/-- The rendered literals of the three JSON constants. -/
def nullChars : List Char := ['n', 'u', 'l', 'l']

/-- Rendered `true`. -/
def trueChars : List Char := ['t', 'r', 'u', 'e']

/-- Rendered `false`. -/
def falseChars : List Char := ['f', 'a', 'l', 's', 'e']

/-- How `json.dumps` renders one character inside a string literal with
`ensure_ascii=False`: short escapes for the common control characters, a
`\u00XX` escape for the remaining ones below 0x20, everything else verbatim. -/
def escapeChunk (c : Char) : List Char :=
  if c = quoteC then [bslashC, quoteC]
  else if c = bslashC then [bslashC, bslashC]
  else if c = nlC then [bslashC, 'n']
  else if c = tabC then [bslashC, 't']
  else if c = crC then [bslashC, 'r']
  else if c = Char.ofNat 8 then [bslashC, 'b']
  else if c = Char.ofNat 12 then [bslashC, 'f']
  else if c.toNat < 32 then bslashC :: 'u' :: '0' :: '0' :: hexPair c.toNat
  else [c]

/-- Escape a whole character run. -/
def escapeChars : List Char → List Char
  | [] => []
  | c :: rest => escapeChunk c ++ escapeChars rest

/-- A rendered JSON string literal. -/
def quoteList (l : List Char) : List Char := quoteC :: escapeChars l ++ [quoteC]

/-- Indentation for nesting level `lvl` under `indent=2`. -/
def indentChars (lvl : Nat) : List Char := List.replicate (2 * lvl) spC

/-- Join chunks with a separator. -/
def joinSep (sep : List Char) : List (List Char) → List Char
  | [] => []
  | [x] => x
  | x :: y :: rest => x ++ sep ++ joinSep sep (y :: rest)

mutual
/-- Render a value at nesting level `lvl`, following `json.dumps` with
`indent=2`, `ensure_ascii=False` and default separators. -/
def dumpsVal (lvl : Nat) : Json → List Char
  | .null => nullChars
  | .bool true => trueChars
  | .bool false => falseChars
  | .num n => (toString n).data
  | .flt tok => tok.data
  | .str s => quoteList s.data
  | .arr .nil => [brackL, brackR]
  | .arr (.cons v r) =>
      brackL :: nlC ::
        joinSep (',' :: [nlC])
          ((dumpsElems (lvl + 1) (.cons v r)).map (fun t => indentChars (lvl + 1) ++ t)) ++
        nlC :: indentChars lvl ++ [brackR]
  | .obj .nil => [braceL, braceR]
  | .obj (.cons k v r) =>
      braceL :: nlC ::
        joinSep (',' :: [nlC])
          ((dumpsFields (lvl + 1) (.cons k v r)).map (fun t => indentChars (lvl + 1) ++ t)) ++
        nlC :: indentChars lvl ++ [braceR]

/-- Rendered array elements, one chunk per element. -/
def dumpsElems (lvl : Nat) : JsonList → List (List Char)
  | .nil => []
  | .cons v r => dumpsVal lvl v :: dumpsElems lvl r

/-- Rendered object members, one `"key": value` chunk per member. -/
def dumpsFields (lvl : Nat) : JsonObj → List (List Char)
  | .nil => []
  | .cons k v r => (quoteList k.data ++ ':' :: spC :: dumpsVal lvl v) :: dumpsFields lvl r
end

/-! ### Parsing: `json.loads` -/

/-- JSON whitespace (exactly the four characters `json` skips). -/
def isJsonWs (c : Char) : Bool := c == spC || c == nlC || c == crC || c == tabC

/-- Drop leading JSON whitespace. -/
def skipWs : List Char → List Char
  | [] => []
  | c :: rest => if isJsonWs c then skipWs rest else c :: rest

/-- Hexadecimal digit value. -/
def hexVal (c : Char) : Option Nat :=
  if 48 ≤ c.toNat ∧ c.toNat ≤ 57 then some (c.toNat - 48)
  else if 97 ≤ c.toNat ∧ c.toNat ≤ 102 then some (c.toNat - 87)
  else if 65 ≤ c.toNat ∧ c.toNat ≤ 70 then some (c.toNat - 55)
  else none

/-- Four hexadecimal digits. -/
def hex4 (a b c d : Char) : Option Nat := do
  let va ← hexVal a
  let vb ← hexVal b
  let vc ← hexVal c
  let vd ← hexVal d
  return ((va * 16 + vb) * 16 + vc) * 16 + vd

/-- The character denoted by a short escape, if valid (`json` is strict:
anything else is an error). -/
def shortEscape (e : Char) : Option Char :=
  if e = quoteC then some quoteC
  else if e = bslashC then some bslashC
  else if e = '/' then some '/'
  else if e = 'n' then some nlC
  else if e = 't' then some tabC
  else if e = 'r' then some crC
  else if e = 'b' then some (Char.ofNat 8)
  else if e = 'f' then some (Char.ofNat 12)
  else none

/-- Scan a string literal body after the opening quote; returns the decoded
characters and the input after the closing quote. Unescaped control
characters are an error, as in `json.loads` (strict mode). -/
def parseStrChars : List Char → Option (List Char × List Char)
  | [] => none
  | c :: rest =>
    if c = quoteC then some ([], rest)
    else if c = bslashC then
      match rest with
      | [] => none
      | e :: r2 =>
        if e = 'u' then
          match r2 with
          | a :: b :: c2 :: d :: r3 =>
            match hex4 a b c2 d with
            | some n => (parseStrChars r3).map (fun p => (Char.ofNat n :: p.1, p.2))
            | none => none
          | _ => none
        else
          match shortEscape e with
          | some ch => (parseStrChars r2).map (fun p => (ch :: p.1, p.2))
          | none => none
    else if c.toNat < 32 then none
    else (parseStrChars rest).map (fun p => (c :: p.1, p.2))

/-- Decimal digit predicate. -/
def isDigitC (c : Char) : Bool := 48 ≤ c.toNat && c.toNat ≤ 57

/-- Greedily take decimal digits. -/
def takeDigits : List Char → List Char × List Char
  | [] => ([], [])
  | c :: rest =>
    if isDigitC c then
      let p := takeDigits rest
      (c :: p.1, p.2)
    else ([], c :: rest)

/-- Numeric value of a digit run. -/
def natOfDigits (l : List Char) : Nat :=
  l.foldl (fun acc c => acc * 10 + (c.toNat - 48)) 0

/-- JSON forbids redundant leading zeros in the integer part. -/
def leadingZeroBad : List Char → Bool
  | c :: _ :: _ => c = Char.ofNat 48
  | _ => false

/-- Scan a numeric literal starting at the (sign-stripped) integer part.
A pure integer becomes `.num`; a literal with a fractional part or exponent
becomes `.flt` carrying its token (the script never writes numbers, so the
IEEE value of a float is not modelled). -/
def parseNumCore (neg : Bool) (cs : List Char) : Option (Json × List Char) :=
  let p := takeDigits cs
  if p.1 = [] then none
  else if leadingZeroBad p.1 then none
  else
    let sign : List Char := if neg then ['-'] else []
    match p.2 with
    | '.' :: r2 =>
      let q := takeDigits r2
      if q.1 = [] then none
      else
        match q.2 with
        | 'e' :: r3 => (expDigits r3).map (fun w =>
            (Json.flt (String.mk (sign ++ p.1 ++ '.' :: q.1 ++ 'e' :: w.1)), w.2))
        | 'E' :: r3 => (expDigits r3).map (fun w =>
            (Json.flt (String.mk (sign ++ p.1 ++ '.' :: q.1 ++ 'E' :: w.1)), w.2))
        | _ => some (.flt (String.mk (sign ++ p.1 ++ '.' :: q.1)), q.2)
    | 'e' :: r2 => (expDigits r2).map (fun w =>
        (Json.flt (String.mk (sign ++ p.1 ++ 'e' :: w.1)), w.2))
    | 'E' :: r2 => (expDigits r2).map (fun w =>
        (Json.flt (String.mk (sign ++ p.1 ++ 'E' :: w.1)), w.2))
    | _ =>
      let v : Int := natOfDigits p.1
      some (.num (if neg then -v else v), p.2)
where
  /-- An exponent part after `e`/`E`: optional sign then digits. -/
  expDigits (cs : List Char) : Option (List Char × List Char) :=
    match cs with
    | '+' :: r =>
      let q := takeDigits r
      if q.1 = [] then none else some ('+' :: q.1, q.2)
    | '-' :: r =>
      let q := takeDigits r
      if q.1 = [] then none else some ('-' :: q.1, q.2)
    | _ =>
      let q := takeDigits cs
      if q.1 = [] then none else some (q.1, q.2)

/-- Scan a numeric literal, handling the sign and the `-Infinity` constant
(`json.loads` accepts `NaN`, `Infinity`, `-Infinity` by default). -/
def parseNumTok : List Char → Option (Json × List Char)
  | '-' :: 'I' :: 'n' :: 'f' :: 'i' :: 'n' :: 'i' :: 't' :: 'y' :: r =>
      some (.flt "-Infinity", r)
  | '-' :: rest => parseNumCore true rest
  | cs => parseNumCore false cs

mutual
/-- Scan one JSON value (whitespace already skipped). Fuel decreases at every
mutual call; the scanner consumes at least one character per three fuel units,
so the `3 * length + 40` budget of `json_loads` never runs out. -/
def parseJsonValue : Nat → List Char → Option (Json × List Char)
  | 0, _ => none
  | _ + 1, [] => none
  | fuel + 1, c :: rest =>
    if c = 'n' then
      match rest with
      | 'u' :: 'l' :: 'l' :: r => some (.null, r)
      | _ => none
    else if c = 't' then
      match rest with
      | 'r' :: 'u' :: 'e' :: r => some (.bool true, r)
      | _ => none
    else if c = 'f' then
      match rest with
      | 'a' :: 'l' :: 's' :: 'e' :: r => some (.bool false, r)
      | _ => none
    else if c = 'N' then
      match rest with
      | 'a' :: 'N' :: r => some (.flt "NaN", r)
      | _ => none
    else if c = 'I' then
      match rest with
      | 'n' :: 'f' :: 'i' :: 'n' :: 'i' :: 't' :: 'y' :: r => some (.flt "Infinity", r)
      | _ => none
    else if c = quoteC then
      (parseStrChars rest).map (fun p => (Json.str (String.mk p.1), p.2))
    else if c = braceL then parseObjRest fuel (skipWs rest)
    else if c = brackL then parseArrRest fuel (skipWs rest)
    else parseNumTok (c :: rest)

/-- After an opening brace: either an immediate close or the member list. -/
def parseObjRest : Nat → List Char → Option (Json × List Char)
  | 0, _ => none
  | _ + 1, [] => none
  | fuel + 1, c :: rest =>
    if c = braceR then some (.obj .nil, rest)
    else parseMembersRest fuel (c :: rest) .nil

/-- Members of an object, accumulated with Python-dict update semantics
(`setKV`: duplicate keys keep the first position, last value wins). -/
def parseMembersRest : Nat → List Char → JsonObj → Option (Json × List Char)
  | 0, _, _ => none
  | _ + 1, [], _ => none
  | fuel + 1, c :: rest, acc =>
    if c = quoteC then
      match parseStrChars rest with
      | some (kcs, r1) =>
        (match skipWs r1 with
        | ':' :: r2 =>
          (match parseJsonValue fuel (skipWs r2) with
          | some (v, r3) =>
            (match skipWs r3 with
            | c2 :: r4 =>
              if c2 = ',' then
                parseMembersRest fuel (skipWs r4) (setKV acc (String.mk kcs) v)
              else if c2 = braceR then some (.obj (setKV acc (String.mk kcs) v), r4)
              else none
            | [] => none)
          | none => none)
        | _ => none)
      | none => none
    else none

/-- After an opening square bracket: either an immediate close or elements. -/
def parseArrRest : Nat → List Char → Option (Json × List Char)
  | 0, _ => none
  | _ + 1, [] => none
  | fuel + 1, c :: rest =>
    if c = brackR then some (.arr .nil, rest)
    else parseElemsRest fuel (c :: rest) .nil

/-- Elements of an array, in order. -/
def parseElemsRest : Nat → List Char → JsonList → Option (Json × List Char)
  | 0, _, _ => none
  | fuel + 1, cs, acc =>
    match parseJsonValue fuel cs with
    | some (v, r1) =>
      (match skipWs r1 with
      | c :: r2 =>
        if c = ',' then parseElemsRest fuel (skipWs r2) (jlAppend acc v)
        else if c = brackR then some (.arr (jlAppend acc v), r2)
        else none
      | [] => none)
    | none => none
end

/-- The model of `json.loads`: scan one value, then require only whitespace
after it. `none` is a raised `JSONDecodeError`. -/
def json_loads (s : String) : Option Json :=
  match parseJsonValue (3 * s.data.length + 40) (skipWs s.data) with
  | some (j, rest) => if (skipWs rest).isEmpty then some j else none
  | none => none

/-! ### State store -/

/-- Errors a run can abort with (each models a Python exception class):
network failure during fetch, `JSONDecodeError` from `json.loads`,
`AttributeError` (calling a `dict`/`str` method on the wrong type),
`ValueError` from `datetime.fromisoformat`, `TypeError` (naive/aware
subtraction), and an SMTP failure during `send_email`. -/
inductive RunError where
  | network | jsonDecode | attrError | valueError | typeError | delivery
deriving DecidableEq

/-- The dict literal `load_state` returns when no state file exists. -/
def defaultState : Json :=
  .obj (.cons "last_available" .null (.cons "last_status_email_utc" .null .nil))

/-- Model of `load_state()`: the argument is the state file's contents, or
`none` when the file does not exist. When the file exists its text goes
straight to `json.loads`; there is no exception handler around it, so an
unparseable file raises (`.error .jsonDecode`). -/
def load_state : Option String → Except RunError Json
  | none => .ok defaultState
  | some txt =>
    match json_loads txt with
    | some j => .ok j
    | none => .error .jsonDecode

/-- Model of `save_state(state)`: the text written to the state file,
`json.dumps(state, indent=2, ensure_ascii=False) + "\n"`. -/
def save_state (state : Json) : String := String.mk (dumpsVal 0 state ++ [nlC])

/-- The persisted record as the specification describes it: availability
tri-state and an optional timestamp, both unset on the very first run. -/
structure StockState where
  last_available : Option Bool
  last_status_email_utc : Option String

/-- Encode a tri-state as JSON (`None`/`True`/`False`). -/
def jsonOfOptBool : Option Bool → Json
  | none => .null
  | some b => .bool b

/-- Encode an optional string as JSON. -/
def jsonOfOptStr : Option String → Json
  | none => .null
  | some s => .str s

/-- The dict the script builds for a given abstract state. -/
def encodeState (s : StockState) : Json :=
  .obj (.cons "last_available" (jsonOfOptBool s.last_available)
    (.cons "last_status_email_utc" (jsonOfOptStr s.last_status_email_utc) .nil))

/-! ### The availability classifier -/

/-- Case folding as `re.IGNORECASE` applies to the pattern alphabet in use:
ASCII letters plus the Danish letters that occur in the patterns. -/
def foldChar (c : Char) : Char :=
  if c = Char.ofNat 197 then Char.ofNat 229
  else if c = Char.ofNat 198 then Char.ofNat 230
  else if c = Char.ofNat 216 then Char.ofNat 248
  else c.toLower

/-- Does `hay` start with `needle`? -/
def leadsWith : List Char → List Char → Bool
  | [], _ => true
  | n :: ns, h :: hs => if n = h then leadsWith ns hs else false
  | _, [] => false

/-- Is `needle` a contiguous substring of `hay`? -/
def hasSub (needle : List Char) : List Char → Bool
  | [] => leadsWith needle []
  | c :: rest => leadsWith needle (c :: rest) || hasSub needle rest

/-- Model of `re.search(pat, html, re.IGNORECASE)` viewed as a Boolean: the
patterns in this script are literal phrases, so the search is a
case-insensitive substring test. -/
def searchCI (pat html : String) : Bool :=
  hasSub (pat.data.map foldChar) (html.data.map foldChar)

/-- `OUT_OF_STOCK_PATTERNS` from the script. -/
def OUT_OF_STOCK_PATTERNS : List String := ["Ikke på lager", "Udsolgt"]

/-- `IN_STOCK_HINTS` from the script. -/
def IN_STOCK_HINTS : List String := ["På lager", "Læg i kurv", "Tilføj til kurv"]

/-- Model of `detect_available(html)`: any out-of-stock pattern forces
`False`; otherwise any in-stock hint gives `True`; otherwise `False`. -/
def detect_available (html : String) : Bool :=
  if OUT_OF_STOCK_PATTERNS.any (fun p => searchCI p html) then false
  else if IN_STOCK_HINTS.any (fun p => searchCI p html) then true
  else false

/-! ### Recipient construction in `send_email` -/

/-- Python `str.split(",")`: split at every comma, keeping empty pieces. -/
def pySplitGo (sep : Char) : List Char → List Char → List String
  | [], acc => [String.mk acc.reverse]
  | c :: rest, acc =>
    if c = sep then String.mk acc.reverse :: pySplitGo sep rest []
    else pySplitGo sep rest (c :: acc)

/-- Python `s.split(sep)` for a one-character separator. -/
def pySplit (s : String) (sep : Char) : List String := pySplitGo sep s.data []

/-- The whitespace characters `str.strip()` removes (ASCII range; the script
only meets ASCII separators around addresses). -/
def isPySpace (c : Char) : Bool :=
  c == spC || c == tabC || c == nlC || c == crC || c == Char.ofNat 11 || c == Char.ofNat 12

/-- Python `str.strip()`: drop leading and trailing whitespace. -/
def pyStrip (s : String) : String :=
  String.mk (((s.data.dropWhile isPySpace).reverse.dropWhile isPySpace).reverse)

/-- The recipient list `send_email` builds from `MAIL_TO`:
`[r.strip() for r in mail_to.split(",") if r.strip()]`. -/
def recipients (mail_to : String) : List String :=
  ((pySplit mail_to ',').map pyStrip).filter (fun r => r != "")

/-! ### The timeline: civil dates and ISO-8601 parsing/formatting

Instants are `Int` microseconds since 1970-01-01T00:00:00 UTC; at this
resolution the Python `datetime` arithmetic the script performs is exact. -/

/-- Leap year in the proleptic Gregorian calendar. -/
def isLeapYear (y : Int) : Bool := (y.emod 4 == 0 && y.emod 100 != 0) || y.emod 400 == 0

/-- Days in a month. -/
def daysInMonth (y : Int) (m : Nat) : Nat :=
  if m = 2 then (if isLeapYear y then 29 else 28)
  else if m = 4 ∨ m = 6 ∨ m = 9 ∨ m = 11 then 30
  else 31

/-- Days from 1970-01-01 to the civil date `y-m-d` (Gregorian; the standard
era/year-of-era computation, with flooring division). -/
def daysFromCivil (y : Int) (m d : Nat) : Int :=
  let y' : Int := if m ≤ 2 then y - 1 else y
  let era : Int := y'.ediv 400
  let yoe : Nat := (y' - era * 400).toNat
  let mp : Nat := (m + 9) % 12
  let doy : Nat := (153 * mp + 2) / 5 + d - 1
  let doe : Nat := yoe * 365 + yoe / 4 - yoe / 100 + doy
  era * 146097 + (doe : Int) - 719468

/-- Civil date `(y, m, d)` of the day `z` days after 1970-01-01 (inverse of
`daysFromCivil`). -/
def civilFromDays (z : Int) : Int × Nat × Nat :=
  let z' : Int := z + 719468
  let era : Int := z'.ediv 146097
  let doe : Nat := (z' - era * 146097).toNat
  let yoe : Nat := (doe - doe / 1460 + doe / 36524 - doe / 146096) / 365
  let doy : Nat := doe - (365 * yoe + yoe / 4 - yoe / 100)
  let mp : Nat := (5 * doy + 2) / 153
  let d : Nat := doy - (153 * mp + 2) / 5 + 1
  let m : Nat := if mp < 10 then mp + 3 else mp - 9
  (era * 400 + (yoe : Int) + (if m ≤ 2 then 1 else 0), m, d)

/-- Fixed-width decimal rendering (most significant digit first). -/
def padNum (width n : Nat) : List Char :=
  (List.range width).map (fun i => Char.ofNat (48 + n / 10 ^ (width - 1 - i) % 10))

/-- Model of `now.isoformat()` for an aware UTC datetime: microseconds are
printed only when nonzero, and the offset prints as `+00:00`. -/
def isoformatUTC (t : Int) : String :=
  let day : Int := t.ediv 86400000000
  let tod : Nat := (t.emod 86400000000).toNat
  let ymd := civilFromDays day
  let hh := tod / 3600000000
  let rest := tod % 3600000000
  let mi := rest / 60000000
  let rest2 := rest % 60000000
  let ss := rest2 / 1000000
  let micro := rest2 % 1000000
  String.mk (padNum 4 ymd.1.toNat ++ '-' :: padNum 2 ymd.2.1 ++ '-' :: padNum 2 ymd.2.2 ++
    'T' :: padNum 2 hh ++ ':' :: padNum 2 mi ++ ':' :: padNum 2 ss ++
    (if micro = 0 then [] else '.' :: padNum 6 micro) ++ ['+', '0', '0', ':', '0', '0'])

/-- A parsed `datetime`: either naive (no UTC offset — unusable next to an
aware `now`) or aware, reduced to its UTC instant. -/
inductive PyDt where
  | naive : PyDt
  | aware : Int → PyDt
deriving DecidableEq

/-- Decimal digit value. -/
def digitVal (c : Char) : Option Nat :=
  if isDigitC c then some (c.toNat - 48) else none

/-- Two fixed digits. -/
def d2 (a b : Char) : Option Nat := do
  return (← digitVal a) * 10 + (← digitVal b)

/-- Four fixed digits. -/
def d4 (a b c d : Char) : Option Nat := do
  return ((← digitVal a) * 10 + (← digitVal b)) * 100 + ((← digitVal c) * 10 + (← digitVal d))

/-- A fractional-seconds group: exactly three or six digits, as
`datetime.fromisoformat` accepts; the value is in microseconds. -/
def parseFrac : List Char → Option (Nat × List Char)
  | a :: b :: c :: rest => do
    let x ← digitVal a
    let y ← digitVal b
    let z ← digitVal c
    match rest with
    | p :: q :: r :: rest2 =>
      match digitVal p, digitVal q, digitVal r with
      | some u, some v, some w => return ((x * 100 + y * 10 + z) * 1000 + u * 100 + v * 10 + w, rest2)
      | _, _, _ => return ((x * 100 + y * 10 + z) * 1000, rest)
    | _ => return ((x * 100 + y * 10 + z) * 1000, rest)
  | _ => none

/-- A UTC offset after its sign: `HH:MM[:SS[.ffffff]]`, ending the input;
the result is the offset in microseconds. An offset of 24 hours or more is
rejected (`timezone` raises). -/
def parseOffsetTail : List Char → Option Int
  | h1 :: h2 :: ':' :: m1 :: m2 :: rest => do
    let hh ← d2 h1 h2
    let mm ← d2 m1 m2
    if hh ≥ 24 ∨ mm ≥ 60 then none
    else
      let base : Nat := (hh * 3600 + mm * 60) * 1000000
      match rest with
      | [] => return (base : Int)
      | ':' :: s1 :: s2 :: rest2 => do
        let ss ← d2 s1 s2
        if ss ≥ 60 then none
        else
          match rest2 with
          | [] => return ((base + ss * 1000000 : Nat) : Int)
          | '.' :: rest3 =>
            match parseFrac rest3 with
            | some (fr, []) => return ((base + ss * 1000000 + fr : Nat) : Int)
            | _ => none
          | _ => none
      | _ => none
  | _ => none

/-- The tail of a time string: either the end (naive) or a signed offset. -/
def parseOffsetOrEnd : List Char → Option (Option Int)
  | [] => some none
  | '+' :: rest => (parseOffsetTail rest).map (fun v => some v)
  | '-' :: rest => (parseOffsetTail rest).map (fun v => some (-v))
  | _ => none

/-- The time-of-day part `HH[:MM[:SS[.frac]]]` followed by an optional
offset, as `datetime.fromisoformat` accepts in the versions this script
targets. Returns microseconds within the day and the offset. -/
def parseTimePart (cs : List Char) : Option (Nat × Option Int) :=
  match cs with
  | h1 :: h2 :: rest => do
    let hh ← d2 h1 h2
    if hh ≥ 24 then none
    else
      match rest with
      | ':' :: m1 :: m2 :: rest2 => do
        let mm ← d2 m1 m2
        if mm ≥ 60 then none
        else
          match rest2 with
          | ':' :: s1 :: s2 :: rest3 => do
            let ss ← d2 s1 s2
            if ss ≥ 60 then none
            else
              match rest3 with
              | '.' :: rest4 => do
                let fr ← parseFrac rest4
                let off ← parseOffsetOrEnd fr.2
                return ((hh * 3600 + mm * 60 + ss) * 1000000 + fr.1, off)
              | _ => do
                let off ← parseOffsetOrEnd rest3
                return ((hh * 3600 + mm * 60 + ss) * 1000000, off)
          | _ => do
            let off ← parseOffsetOrEnd rest2
            return ((hh * 3600 + mm * 60) * 1000000, off)
      | _ => do
        let off ← parseOffsetOrEnd rest
        return ((hh * 3600) * 1000000, off)
  | _ => none

/-- Model of `datetime.fromisoformat` on the formats relevant here:
`YYYY-MM-DD` with validated ranges, optionally one separator character and a
time part. `none` is a raised `ValueError`. -/
def fromIso (s : String) : Option PyDt :=
  match s.data with
  | y1 :: y2 :: y3 :: y4 :: '-' :: mo1 :: mo2 :: '-' :: dd1 :: dd2 :: rest => do
    let y ← d4 y1 y2 y3 y4
    let mo ← d2 mo1 mo2
    let dd ← d2 dd1 dd2
    if y = 0 ∨ mo = 0 ∨ mo > 12 ∨ dd = 0 ∨ dd > daysInMonth y mo then none
    else
      match rest with
      | [] => return .naive
      | _sep :: rest2 => do
        let t ← parseTimePart rest2
        match t.2 with
        | none => return .naive
        | some off => return .aware (daysFromCivil y mo dd * 86400000000 + (t.1 : Int) - off)
  | _ => none

/-- One character of `dt.replace("Z", "+00:00")` (the pattern is a single
character, so substring replacement is character replacement). -/
def replaceZChunk (c : Char) : List Char :=
  if c = 'Z' then ['+', '0', '0', ':', '0', '0'] else [c]

/-- All of `dt.replace("Z", "+00:00")`. -/
def replaceZChars : List Char → List Char
  | [] => []
  | c :: rest => replaceZChunk c ++ replaceZChars rest

/-- Model of `parse_iso(dt)`: replace `"Z"` with `"+00:00"`, then parse. -/
def parse_iso (s : String) : Option PyDt :=
  fromIso (String.mk (replaceZChars s.data))

/-! ### The 12-hour gate and the orchestration of `main` -/

/-- Python truthiness of a value read from the loaded JSON record (the
script's `if not last_sent_iso`). -/
def pyFalsy : Option Json → Bool
  | none => true
  | some .null => true
  | some (.bool b) => !b
  | some (.num n) => n == 0
  | some (.flt _) => false
  | some (.str s) => s == ""
  | some (.arr .nil) => true
  | some (.arr (.cons _ _)) => false
  | some (.obj .nil) => true
  | some (.obj (.cons _ _ _)) => false

/-- Model of `should_send_12h_status(last_sent_iso, now)`, applied to the
JSON value found under `"last_status_email_utc"` (`none` when the key is
absent). A falsy value short-circuits to `True`; a non-string truthy value
has no `.replace` (`AttributeError`); an unparseable string raises
`ValueError`; a parsed naive datetime makes `now - last` raise `TypeError`;
otherwise the send is due when at least 12 hours have elapsed. -/
def shouldSend12h (v : Option Json) (now : Int) : Except RunError Bool :=
  if pyFalsy v then .ok true
  else
    match v with
    | some (.str s) =>
      match parse_iso s with
      | none => .error .valueError
      | some .naive => .error .typeError
      | some (.aware last) => .ok (decide (now - last ≥ 43200000000))
    | _ => .error .attrError

/-- `state.get(...)` requires the loaded value to be a dict; anything else
raises `AttributeError` at the first `state.get` call in `main`. -/
def asDict : Json → Except RunError JsonObj
  | .obj kvs => .ok kvs
  | _ => .error .attrError

/-- `last_available is not True` holds unless the value is the literal
`True` (identity comparison: only the JSON `true` is the Python `True`). -/
def isJsonTrue : Option Json → Bool
  | some (.bool true) => true
  | _ => false

/-- The two emails `main` can send, in program order. -/
inductive EmailKind where
  | restock | status
deriving DecidableEq

/-- One run's inputs: the fetch outcome (a `NetworkError` or the decoded
page text), the state file's contents (or `none` when absent), the current
UTC time in microseconds, and one SMTP oracle per potential `send_email`
call (`false` = that send raises). -/
structure RunInput where
  fetched : Except Unit String
  stateFile : Option String
  nowMicros : Int
  restockSendOk : Bool
  statusSendOk : Bool

/-- One run's observable outcome: emails delivered in order, the state
file's contents after the run, and the abort error if any (`none` = exit 0). -/
structure RunOutcome where
  sent : List EmailKind
  stateFile : Option String
  exitError : Option RunError
deriving DecidableEq

/-- Model of `main()`: fetch, classify, load state, send the restock alert
on a transition to available, send the 12-hour status email when due (and
stamp the send time), then write `last_available` and persist. Any raised
error aborts immediately: the file keeps its previous contents and nothing
later is attempted. -/
def runMain (inp : RunInput) : RunOutcome :=
  match inp.fetched with
  | .error _ => ⟨[], inp.stateFile, some .network⟩
  | .ok html =>
    let available := detect_available html
    match load_state inp.stateFile with
    | .error e => ⟨[], inp.stateFile, some e⟩
    | .ok state =>
      match asDict state with
      | .error e => ⟨[], inp.stateFile, some e⟩
      | .ok dict =>
        let lastAvailable := getKV dict "last_available"
        let needRestock := available && !isJsonTrue lastAvailable
        if needRestock && !inp.restockSendOk then ⟨[], inp.stateFile, some .delivery⟩
        else
          let sent1 := if needRestock then [EmailKind.restock] else []
          match shouldSend12h (getKV dict "last_status_email_utc") inp.nowMicros with
          | .error e => ⟨sent1, inp.stateFile, some e⟩
          | .ok doStatus =>
            if doStatus && !inp.statusSendOk then ⟨sent1, inp.stateFile, some .delivery⟩
            else
              let dict2 :=
                if doStatus then
                  setKV dict "last_status_email_utc" (.str (isoformatUTC inp.nowMicros))
                else dict
              let dict3 := setKV dict2 "last_available" (.bool available)
              ⟨sent1 ++ (if doStatus then [EmailKind.status] else []),
               some (save_state (.obj dict3)), none⟩

/-! ### Classifier claims -/

/-- C2: any out-of-stock pattern (case-insensitive match) forces the
classifier to return false, regardless of any in-stock hints present. -/
theorem c2_out_of_stock_overrides (html : String)
    (h : ∃ p ∈ OUT_OF_STOCK_PATTERNS, searchCI p html = true) :
    detect_available html = false := by
  obtain ⟨p, hp, hs⟩ := h
  have ha : OUT_OF_STOCK_PATTERNS.any (fun p => searchCI p html) = true :=
    List.any_eq_true.mpr ⟨p, hp, hs⟩
  simp [detect_available, ha]

/-- Witness for C2 at a page text holding both an out-of-stock pattern and an
in-stock hint. -/
theorem c2_witness :
    (∃ p ∈ IN_STOCK_HINTS, searchCI p "Udsolgt! Læg i kurv" = true) ∧
    detect_available "Udsolgt! Læg i kurv" = false :=
  ⟨by decide, c2_out_of_stock_overrides "Udsolgt! Læg i kurv" (by decide)⟩

/-- C7: with no out-of-stock pattern and no in-stock hint, the classifier
returns false (unknown is treated as unavailable). -/
theorem c7_no_signal_defaults_false (html : String)
    (h1 : ∀ p ∈ OUT_OF_STOCK_PATTERNS, searchCI p html = false)
    (h2 : ∀ p ∈ IN_STOCK_HINTS, searchCI p html = false) :
    detect_available html = false := by
  have ha : OUT_OF_STOCK_PATTERNS.any (fun p => searchCI p html) = false := by
    rw [List.any_eq_false]
    intro p hp
    simp [h1 p hp]
  have hb : IN_STOCK_HINTS.any (fun p => searchCI p html) = false := by
    rw [List.any_eq_false]
    intro p hp
    simp [h2 p hp]
  simp [detect_available, ha, hb]

/-- Witness for C7 at a neutral page text. -/
theorem c7_witness : detect_available "hello world" = false :=
  c7_no_signal_defaults_false "hello world" (by decide) (by decide)

/-! ### Recipient-list claim -/

/-- Trimming is idempotent at the character-list level. -/
theorem stripCore_idem (l : List Char) :
    List.rdropWhile isPySpace
        (List.dropWhile isPySpace (List.rdropWhile isPySpace (List.dropWhile isPySpace l)))
      = List.rdropWhile isPySpace (List.dropWhile isPySpace l) := by
  have hdw : List.dropWhile isPySpace
      (List.rdropWhile isPySpace (List.dropWhile isPySpace l))
      = List.rdropWhile isPySpace (List.dropWhile isPySpace l) := by
    rw [List.dropWhile_eq_self_iff]
    intro hl
    have hpre : List.rdropWhile isPySpace (List.dropWhile isPySpace l)
        <+: List.dropWhile isPySpace l := List.rdropWhile_prefix _ _
    have hlen : 0 < (List.dropWhile isPySpace l).length :=
      Nat.lt_of_lt_of_le hl hpre.length_le
    have hget := List.IsPrefix.getElem hpre hl
    rw [List.get_eq_getElem, hget]
    have := List.dropWhile_get_zero_not isPySpace l hlen
    rwa [List.get_eq_getElem] at this
  rw [hdw, List.rdropWhile_idempotent]

/-- `pyStrip` through `List.rdropWhile`. -/
theorem pyStrip_eq (s : String) :
    pyStrip s = String.mk (List.rdropWhile isPySpace (List.dropWhile isPySpace s.data)) := rfl

/-- Stripping twice is stripping once. -/
theorem pyStrip_idem (s : String) : pyStrip (pyStrip s) = pyStrip s := by
  rw [pyStrip_eq, pyStrip_eq]
  exact congrArg String.mk (stripCore_idem s.data)

/-- C9: the recipient list is exactly the non-empty trimmed entries of the
comma-separated `MAIL_TO` value, in their original order; every delivered
entry is non-empty and free of leading/trailing whitespace. -/
theorem c9_recipients_exact (mail_to : String) :
    recipients mail_to = ((pySplit mail_to ',').map pyStrip).filter (fun r => r != "") ∧
    ∀ r ∈ recipients mail_to, r ≠ "" ∧ pyStrip r = r := by
  refine ⟨rfl, ?_⟩
  intro r hr
  rw [recipients, List.mem_filter] at hr
  obtain ⟨hmem, hne⟩ := hr
  refine ⟨by simpa using hne, ?_⟩
  rw [List.mem_map] at hmem
  obtain ⟨x, _, rfl⟩ := hmem
  exact pyStrip_idem x

/-! ### The `"Z"` suffix claim -/

/-- Character-wise replacement distributes over append. -/
theorem replaceZChars_append (l1 l2 : List Char) :
    replaceZChars (l1 ++ l2) = replaceZChars l1 ++ replaceZChars l2 := by
  induction l1 with
  | nil => rfl
  | cons c r ih => simp [replaceZChars, ih]

/-- Replacement is the identity on `"Z"`-free text. -/
theorem replaceZChars_of_noZ (l : List Char) (h : ∀ c ∈ l, c ≠ 'Z') :
    replaceZChars l = l := by
  induction l with
  | nil => rfl
  | cons c r ih =>
    have hc : c ≠ 'Z' := h c (by simp)
    simp [replaceZChars, replaceZChunk, hc]
    exact ih (fun x hx => h x (by simp [hx]))

/-- C10: a trailing `"Z"` UTC designator is interpreted exactly as
`"+00:00"`: `parse_iso` agrees on the two spellings, and so does the
12-hour gate reading such a persisted timestamp. -/
theorem c10_z_suffix (s : String) (h : ∀ c ∈ s.data, c ≠ 'Z') :
    parse_iso (s ++ "Z") = parse_iso (s ++ "+00:00") ∧
    ∀ now : Int, shouldSend12h (some (.str (s ++ "Z"))) now
        = shouldSend12h (some (.str (s ++ "+00:00"))) now := by
  have hplus : ∀ c ∈ ("+00:00" : String).data, c ≠ 'Z' := by decide
  have hz : replaceZChars (s ++ "Z").data = s.data ++ ("+00:00" : String).data := by
    rw [String.data_append, replaceZChars_append, replaceZChars_of_noZ s.data h]
    rfl
  have hp : replaceZChars (s ++ "+00:00").data = s.data ++ ("+00:00" : String).data := by
    rw [String.data_append, replaceZChars_append, replaceZChars_of_noZ s.data h,
      replaceZChars_of_noZ _ hplus]
  have hmain : parse_iso (s ++ "Z") = parse_iso (s ++ "+00:00") := by
    rw [parse_iso, parse_iso, hz, hp]
  refine ⟨hmain, fun now => ?_⟩
  have hne1 : ((s ++ "Z") == "") = false := by
    rw [beq_eq_false_iff_ne]
    intro hEq
    have := congrArg String.data hEq
    rw [String.data_append] at this
    simp at this
  have hne2 : ((s ++ "+00:00") == "") = false := by
    rw [beq_eq_false_iff_ne]
    intro hEq
    have := congrArg String.data hEq
    rw [String.data_append] at this
    simp at this
  simp only [shouldSend12h, pyFalsy, hne1, hne2, hmain]

/-- Witness for C10 at a concrete timestamp body. -/
theorem c10_witness :
    parse_iso ("2024-01-02T03:04:05" ++ "Z") = parse_iso ("2024-01-02T03:04:05" ++ "+00:00") ∧
    ∀ now : Int, shouldSend12h (some (.str ("2024-01-02T03:04:05" ++ "Z"))) now
        = shouldSend12h (some (.str ("2024-01-02T03:04:05" ++ "+00:00"))) now :=
  c10_z_suffix "2024-01-02T03:04:05" (by decide)

/-! ### State-store loading claims -/

/-- C1 counterexample: a state file that exists but does not parse makes
`load_state` raise (the script has no handler around `json.loads`), so the
run aborts with the file untouched — it does not return the default state
and proceed. -/
theorem c1_counterexample :
    load_state (some "#") = .error RunError.jsonDecode ∧
    load_state (some "#") ≠ .ok defaultState ∧
    runMain ⟨.ok "x", some "#", 0, true, true⟩ =
      ⟨[], some "#", some RunError.jsonDecode⟩ := by
  refine ⟨rfl, ?_, rfl⟩
  intro hEq
  rw [show load_state (some "#") = .error RunError.jsonDecode from rfl] at hEq
  exact Except.noConfusion hEq

/-- C1 as amended: the default state is returned only when no state file
exists; an existing file that does not parse raises `JSONDecodeError`, the
run aborts, and the file keeps its previous contents. -/
theorem c1_amended_malformed_fatal (html s : String) (inp : RunInput)
    (hbad : json_loads s = none)
    (hf : inp.fetched = .ok html) (hsf : inp.stateFile = some s) :
    load_state none = .ok defaultState ∧
    load_state (some s) = .error RunError.jsonDecode ∧
    runMain inp = ⟨[], some s, some RunError.jsonDecode⟩ := by
  have hl : load_state (some s) = .error RunError.jsonDecode := by
    simp [load_state, hbad]
  refine ⟨rfl, hl, ?_⟩
  rw [runMain, hf]
  rw [hsf, hl]

/-- Witness for the amended C1. -/
theorem c1_amended_witness :
    load_state none = .ok defaultState ∧
    load_state (some "#") = .error RunError.jsonDecode ∧
    runMain ⟨.ok "x", some "#", 0, true, true⟩ =
      ⟨[], some "#", some RunError.jsonDecode⟩ :=
  c1_amended_malformed_fatal "x" "#" ⟨.ok "x", some "#", 0, true, true⟩ rfl rfl rfl

/-! ### Orchestration claims -/

/-- `isJsonTrue` as the Python identity test `is not True`. -/
theorem isJsonTrue_eq_false_iff (v : Option Json) :
    isJsonTrue v = false ↔ v ≠ some (Json.bool true) := by
  rcases v with _ | j
  · simp [isJsonTrue]
  · rcases j with _ | b | n | t | s | l | o
    · simp [isJsonTrue]
    · cases b <;> simp [isJsonTrue]
    · simp [isJsonTrue]
    · simp [isJsonTrue]
    · simp [isJsonTrue]
    · simp [isJsonTrue]
    · simp [isJsonTrue]

/-- A run that gets past loading, both sends succeeding: the explicit
outcome (emails in program order, persisted record, exit 0). Helper shared
by the orchestration claims. -/
theorem runMain_ok (inp : RunInput) (html : String) (state : Json) (dict : JsonObj) (b : Bool)
    (h1 : inp.fetched = .ok html)
    (h2 : load_state inp.stateFile = .ok state)
    (h3 : asDict state = .ok dict)
    (h4 : inp.restockSendOk = true)
    (h5 : inp.statusSendOk = true)
    (h6 : shouldSend12h (getKV dict "last_status_email_utc") inp.nowMicros = .ok b) :
    runMain inp =
      ⟨(if detect_available html && !isJsonTrue (getKV dict "last_available")
          then [EmailKind.restock] else []) ++ (if b then [EmailKind.status] else []),
       some (save_state (.obj (setKV
         (if b then setKV dict "last_status_email_utc" (.str (isoformatUTC inp.nowMicros))
          else dict) "last_available" (.bool (detect_available html))))),
       none⟩ := by
  simp [runMain, h1, h2, h3, h4, h5, h6]

/-- Every run either aborts with the state file untouched, or completes and
persists the updated record. Helper shared by the orchestration claims. -/
theorem runMain_dichotomy (inp : RunInput) :
    ((runMain inp).exitError ≠ none ∧ (runMain inp).stateFile = inp.stateFile) ∨
    (∃ html state dict b,
      inp.fetched = .ok html ∧
      load_state inp.stateFile = .ok state ∧
      asDict state = .ok dict ∧
      shouldSend12h (getKV dict "last_status_email_utc") inp.nowMicros = .ok b ∧
      runMain inp =
        ⟨(if detect_available html && !isJsonTrue (getKV dict "last_available")
            then [EmailKind.restock] else []) ++ (if b then [EmailKind.status] else []),
         some (save_state (.obj (setKV
           (if b then setKV dict "last_status_email_utc" (.str (isoformatUTC inp.nowMicros))
            else dict) "last_available" (.bool (detect_available html))))),
         none⟩) := by
  rcases hfe : inp.fetched with u | html
  · exact Or.inl (by constructor <;> simp [runMain, hfe])
  · rcases hl : load_state inp.stateFile with e | state
    · exact Or.inl (by constructor <;> simp [runMain, hfe, hl])
    · rcases hd : asDict state with e | dict
      · exact Or.inl (by constructor <;> simp [runMain, hfe, hl, hd])
      · cases hr : (detect_available html && !isJsonTrue (getKV dict "last_available"))
            && !inp.restockSendOk
        case true => exact Or.inl (by constructor <;> simp [runMain, hfe, hl, hd, hr])
        case false =>
          rcases hss : shouldSend12h (getKV dict "last_status_email_utc") inp.nowMicros
              with e | doS
          · exact Or.inl (by constructor <;> simp [runMain, hfe, hl, hd, hr, hss])
          · cases hst : doS && !inp.statusSendOk
            case true =>
              exact Or.inl (by constructor <;> simp [runMain, hfe, hl, hd, hr, hss, hst])
            case false =>
              refine Or.inr ⟨html, state, dict, doS, ?_, ?_, ?_, ?_,
                by simp [runMain, hfe, hl, hd, hr, hss, hst]⟩ <;>
                first | exact hfe | exact hl | exact hd | exact hss | rfl

/-- C6: a failed send is fatal at that point: whenever a run ends with a
`DeliveryError`, the persist step was never reached and the state file keeps
exactly its previous contents. -/
theorem c6_delivery_abort (inp : RunInput)
    (h : (runMain inp).exitError = some RunError.delivery) :
    (runMain inp).stateFile = inp.stateFile := by
  rcases runMain_dichotomy inp with ⟨_, hfile⟩ | ⟨_, _, _, _, _, _, _, _, heq⟩
  · exact hfile
  · rw [heq] at h
    exact Option.noConfusion h

/-- Witness for C6: first run on an available page with the restock send
failing; the absent state file stays absent. -/
theorem c6_witness :
    (runMain ⟨.ok "På lager", none, 0, false, true⟩).stateFile = none :=
  c6_delivery_abort ⟨.ok "På lager", none, 0, false, true⟩ rfl

/-- Membership of the restock email in a run's deliveries, for any status
outcome (helper: the restock send precedes everything that can still fail). -/
theorem runMain_sent_restock (inp : RunInput) (html : String) (state : Json) (dict : JsonObj)
    (h1 : inp.fetched = .ok html)
    (h2 : load_state inp.stateFile = .ok state)
    (h3 : asDict state = .ok dict)
    (h4 : inp.restockSendOk = true) :
    EmailKind.restock ∈ (runMain inp).sent ↔
      (detect_available html && !isJsonTrue (getKV dict "last_available")) = true := by
  simp only [runMain, h1, h2, h3, h4, Bool.not_true, Bool.and_false, Bool.false_eq_true,
    if_false]
  rcases hss : shouldSend12h (getKV dict "last_status_email_utc") inp.nowMicros with e | doS
  · cases hcond : detect_available html && !isJsonTrue (getKV dict "last_available") <;>
      simp [hcond]
  · cases hst : doS && !inp.statusSendOk
    case true =>
      cases hcond : detect_available html && !isJsonTrue (getKV dict "last_available") <;>
        simp [hcond, hst]
    case false =>
      cases hcond : detect_available html && !isJsonTrue (getKV dict "last_available") <;>
        cases doS <;> simp [hcond, hst]

/-- C3: a restock-alert email is delivered exactly when this run classifies
the product available and the persisted `last_available` is not `true`
(so also on a first run with the field unset), provided the alert's own
send does not fail. -/
theorem c3_restock_iff (inp : RunInput) (html : String) (state : Json) (dict : JsonObj)
    (h1 : inp.fetched = .ok html)
    (h2 : load_state inp.stateFile = .ok state)
    (h3 : asDict state = .ok dict)
    (h4 : inp.restockSendOk = true) :
    EmailKind.restock ∈ (runMain inp).sent ↔
      (detect_available html = true ∧
       getKV dict "last_available" ≠ some (Json.bool true)) := by
  rw [runMain_sent_restock inp html state dict h1 h2 h3 h4,
    ← isJsonTrue_eq_false_iff (getKV dict "last_available")]
  cases ha : detect_available html <;>
    cases hj : isJsonTrue (getKV dict "last_available") <;> simp [ha, hj]

/-- Witness for C3: very first run (state file absent, both fields unset) on
an available page — the transition from unset fires the alert. -/
theorem c3_witness :
    EmailKind.restock ∈ (runMain ⟨.ok "På lager ✅", none, 0, true, true⟩).sent ↔
      (detect_available "På lager ✅" = true ∧
       getKV (JsonObj.cons "last_available" .null
         (.cons "last_status_email_utc" .null .nil)) "last_available" ≠
           some (Json.bool true)) :=
  c3_restock_iff ⟨.ok "På lager ✅", none, 0, true, true⟩ "På lager ✅" defaultState
    (JsonObj.cons "last_available" .null (.cons "last_status_email_utc" .null .nil))
    rfl rfl rfl rfl

/-- Reading back the key just written. -/
theorem getKV_setKV_same (d : JsonObj) (k : String) (v : Json) :
    getKV (setKV d k v) k = some v := by
  match d with
  | .nil => simp [setKV, getKV]
  | .cons k' v' rest =>
    by_cases h : k' = k
    · simp [setKV, h, getKV]
    · simp [setKV, h, getKV, getKV_setKV_same rest k v]

/-- Writing one key leaves every other key's binding unchanged. -/
theorem getKV_setKV_other (d : JsonObj) (k k2 : String) (v : Json) (hne : k2 ≠ k) :
    getKV (setKV d k v) k2 = getKV d k2 := by
  match d with
  | .nil => simp [setKV, getKV, Ne.symm hne]
  | .cons k' v' rest =>
    by_cases h : k' = k
    · subst h
      simp [setKV, getKV, Ne.symm hne]
    · simp only [setKV, if_neg h, getKV]
      by_cases h2 : k' = k2 <;> simp [h2, getKV_setKV_other rest k k2 v hne]

/-- C4: with the persisted timestamp unset or a valid aware timestamp, the
status email is sent exactly when the field is unset or at least 12 hours
have elapsed (the exact 12-hour boundary sends); when it is sent the
persisted timestamp becomes `now`, and when it is not the field is carried
over unchanged. -/
theorem c4_status_iff (inp : RunInput) (html : String) (state : Json) (dict : JsonObj)
    (h1 : inp.fetched = .ok html)
    (h2 : load_state inp.stateFile = .ok state)
    (h3 : asDict state = .ok dict)
    (h4 : inp.restockSendOk = true)
    (h5 : inp.statusSendOk = true)
    (hv : getKV dict "last_status_email_utc" = none ∨
          getKV dict "last_status_email_utc" = some Json.null ∨
          (∃ s t, getKV dict "last_status_email_utc" = some (.str s) ∧ s ≠ "" ∧
            parse_iso s = some (.aware t))) :
    (EmailKind.status ∈ (runMain inp).sent ↔
      (getKV dict "last_status_email_utc" = none ∨
       getKV dict "last_status_email_utc" = some Json.null ∨
       (∃ s t, getKV dict "last_status_email_utc" = some (.str s) ∧
         parse_iso s = some (.aware t) ∧ inp.nowMicros - t ≥ 43200000000))) ∧
    (∃ fd, (runMain inp).stateFile = some (save_state (.obj fd)) ∧
      getKV fd "last_status_email_utc" =
        (if EmailKind.status ∈ (runMain inp).sent
         then some (.str (isoformatUTC inp.nowMicros))
         else getKV dict "last_status_email_utc")) := by
  obtain ⟨b, hb, hbiff⟩ : ∃ b,
      shouldSend12h (getKV dict "last_status_email_utc") inp.nowMicros = .ok b ∧
      (b = true ↔
        (getKV dict "last_status_email_utc" = none ∨
         getKV dict "last_status_email_utc" = some Json.null ∨
         (∃ s t, getKV dict "last_status_email_utc" = some (.str s) ∧
           parse_iso s = some (.aware t) ∧ inp.nowMicros - t ≥ 43200000000))) := by
    rcases hv with hnone | hnull | ⟨s, t, hs, hsne, hparse⟩
    · exact ⟨true, by simp [shouldSend12h, hnone, pyFalsy], by simp [hnone]⟩
    · exact ⟨true, by simp [shouldSend12h, hnull, pyFalsy], by simp [hnull]⟩
    · refine ⟨decide (inp.nowMicros - t ≥ 43200000000), ?_, ?_⟩
      · simp [shouldSend12h, hs, pyFalsy, hsne, hparse]
      · rw [decide_eq_true_eq]
        constructor
        · intro hp
          exact Or.inr (Or.inr ⟨s, t, hs, hparse, hp⟩)
        · rintro (h | h | ⟨s', t', hs', hp', hge⟩)
          · rw [hs] at h
            exact Option.noConfusion h
          · rw [hs] at h
            simp at h
          · rw [hs] at hs'
            have hss' : s = s' := by
              have := Option.some.inj hs'
              exact Json.str.inj this
            subst hss'
            rw [hparse] at hp'
            have : t = t' := by
              have := Option.some.inj hp'
              exact PyDt.aware.inj this
            subst this
            exact hge
  rw [runMain_ok inp html state dict b h1 h2 h3 h4 h5 hb]
  have hmem : EmailKind.status ∈
      ((if detect_available html && !isJsonTrue (getKV dict "last_available")
          then [EmailKind.restock] else []) ++ (if b then [EmailKind.status] else [])) ↔
        b = true := by
    cases b <;>
      cases hcond : detect_available html && !isJsonTrue (getKV dict "last_available") <;>
        simp [hcond]
  constructor
  · have hsent : (RunOutcome.mk
        ((if detect_available html && !isJsonTrue (getKV dict "last_available")
            then [EmailKind.restock] else []) ++ (if b then [EmailKind.status] else []))
        (some (save_state (.obj (setKV
          (if b then setKV dict "last_status_email_utc" (.str (isoformatUTC inp.nowMicros))
           else dict) "last_available" (.bool (detect_available html)))))) none).sent =
      ((if detect_available html && !isJsonTrue (getKV dict "last_available")
          then [EmailKind.restock] else []) ++ (if b then [EmailKind.status] else [])) := rfl
    rw [hsent, hmem]
    exact hbiff
  · refine ⟨setKV (if b then setKV dict "last_status_email_utc"
        (.str (isoformatUTC inp.nowMicros)) else dict) "last_available"
        (.bool (detect_available html)), rfl, ?_⟩
    rw [getKV_setKV_other _ _ _ _ (by decide)]
    cases b
    · simp [hmem]
    · simp [hmem, getKV_setKV_same]

/-- Loaded record for the C4 witness run. -/
def c4wDict : JsonObj :=
  .cons "last_available" (.bool true)
    (.cons "last_status_email_utc" (.str "2024-01-01T00:00:00+00:00") .nil)

/-- Inputs of the C4 witness run: the persisted timestamp is exactly twelve
hours before `now`. -/
def c4wInput : RunInput :=
  ⟨.ok "Udsolgt", some (save_state (Json.obj c4wDict)), 1704110400000000, true, true⟩

/-- Witness for C4 at the exact 12-hour boundary. -/
theorem c4_witness :
    (EmailKind.status ∈ (runMain c4wInput).sent ↔
      (getKV c4wDict "last_status_email_utc" = none ∨
       getKV c4wDict "last_status_email_utc" = some Json.null ∨
       (∃ s t, getKV c4wDict "last_status_email_utc" = some (.str s) ∧
         parse_iso s = some (.aware t) ∧ c4wInput.nowMicros - t ≥ 43200000000))) ∧
    (∃ fd, (runMain c4wInput).stateFile = some (save_state (.obj fd)) ∧
      getKV fd "last_status_email_utc" =
        (if EmailKind.status ∈ (runMain c4wInput).sent
         then some (.str (isoformatUTC c4wInput.nowMicros))
         else getKV c4wDict "last_status_email_utc")) :=
  c4_status_iff c4wInput "Udsolgt" (Json.obj c4wDict) c4wDict rfl rfl rfl rfl rfl
    (Or.inr (Or.inr ⟨"2024-01-01T00:00:00+00:00", 1704067200000000, rfl, by decide, rfl⟩))

/-- Membership of the status email in a completed run's deliveries. -/
theorem status_mem_iff (c b : Bool) :
    EmailKind.status ∈ ((if c then [EmailKind.restock] else []) ++
      (if b then [EmailKind.status] else [])) ↔ b = true := by
  cases c <;> cases b <;> simp

/-- C8: every run that reaches the persist step overwrites `last_available`
with this run's classification — whether or not any email was sent — while
`last_status_email_utc` is rewritten (to `now`) exactly in the runs whose
status email went out, and is otherwise carried over unchanged. -/
theorem c8_persist_frame (inp : RunInput) (html : String)
    (h1 : inp.fetched = .ok html)
    (hok : (runMain inp).exitError = none) :
    ∃ state dict fd,
      load_state inp.stateFile = .ok state ∧ asDict state = .ok dict ∧
      (runMain inp).stateFile = some (save_state (.obj fd)) ∧
      getKV fd "last_available" = some (.bool (detect_available html)) ∧
      (EmailKind.status ∈ (runMain inp).sent →
        getKV fd "last_status_email_utc" = some (.str (isoformatUTC inp.nowMicros))) ∧
      (EmailKind.status ∉ (runMain inp).sent →
        getKV fd "last_status_email_utc" = getKV dict "last_status_email_utc") := by
  rcases runMain_dichotomy inp with ⟨hne, _⟩ | ⟨html', state, dict, b, hfe, hl, hd, _, heq⟩
  · exact absurd hok hne
  · rw [h1] at hfe
    obtain rfl := Except.ok.inj hfe
    refine ⟨state, dict,
      setKV (if b then setKV dict "last_status_email_utc"
        (.str (isoformatUTC inp.nowMicros)) else dict) "last_available"
        (.bool (detect_available html)), hl, hd, ?_, ?_, ?_, ?_⟩
    · rw [heq]
    · rw [getKV_setKV_same]
    · intro hmem
      rw [heq] at hmem
      have hb : b = true := (status_mem_iff _ b).mp hmem
      subst hb
      rw [getKV_setKV_other _ _ _ _ (by decide)]
      simp [getKV_setKV_same]
    · intro hnmem
      rw [heq] at hnmem
      have hb : b = false := by
        cases b
        · rfl
        · exact absurd ((status_mem_iff _ true).mpr rfl) hnmem
      subst hb
      rw [getKV_setKV_other _ _ _ _ (by decide)]
      simp

/-- Inputs of the C8 witness run: first run ever, page available. -/
def c8wInput : RunInput := ⟨.ok "På lager ✅", none, 86400000000, true, true⟩

/-- Witness for C8: the persisted record of the witness run holds this
run's classification, and its timestamp obeys the status-email frame. -/
theorem c8_witness :
    ∃ state dict fd,
      load_state c8wInput.stateFile = .ok state ∧ asDict state = .ok dict ∧
      (runMain c8wInput).stateFile = some (save_state (.obj fd)) ∧
      getKV fd "last_available" = some (.bool (detect_available "På lager ✅")) ∧
      (EmailKind.status ∈ (runMain c8wInput).sent →
        getKV fd "last_status_email_utc" =
          some (.str (isoformatUTC c8wInput.nowMicros))) ∧
      (EmailKind.status ∉ (runMain c8wInput).sent →
        getKV fd "last_status_email_utc" = getKV dict "last_status_email_utc") :=
  c8_persist_frame c8wInput "På lager ✅" rfl rfl

/-! ### Round-trip of the persisted record -/

/-- A character the JSON string codec passes through verbatim: printable and
neither the quote nor the backslash. Every ISO-8601 timestamp character
(digits, `-`, `:`, `+`, `.`, `T`, `Z`, space) qualifies. -/
abbrev plainChar (c : Char) : Prop := c ≠ quoteC ∧ c ≠ bslashC ∧ 32 ≤ c.toNat

/-- Plain characters are rendered verbatim. -/
theorem escapeChunk_plain (c : Char) (h1 : c ≠ quoteC) (h2 : c ≠ bslashC)
    (h3 : 32 ≤ c.toNat) : escapeChunk c = [c] := by
  have hn : ∀ d : Char, d.toNat < 32 → c ≠ d := by
    intro d hd heq
    rw [heq] at h3
    omega
  rw [escapeChunk, if_neg h1, if_neg h2, if_neg (hn nlC (by decide)),
    if_neg (hn tabC (by decide)), if_neg (hn crC (by decide)),
    if_neg (hn (Char.ofNat 8) (by decide)), if_neg (hn (Char.ofNat 12) (by decide)),
    if_neg (by omega)]

/-- Escaping is the identity on plain text. -/
theorem escapeChars_plain (l : List Char) (h : ∀ c ∈ l, plainChar c) :
    escapeChars l = l := by
  induction l with
  | nil => rfl
  | cons c r ih =>
    obtain ⟨h1, h2, h3⟩ := h c (by simp)
    rw [escapeChars, escapeChunk_plain c h1 h2 h3, ih (fun x hx => h x (by simp [hx]))]
    rfl

/-- `skipWs` drops a whitespace head. -/
theorem skipWs_ws (c : Char) (l : List Char) (h : isJsonWs c = true) :
    skipWs (c :: l) = skipWs l := by
  simp [skipWs, h]

/-- `skipWs` stops at a non-whitespace head. -/
theorem skipWs_not_ws (c : Char) (l : List Char) (h : isJsonWs c = false) :
    skipWs (c :: l) = c :: l := by
  simp [skipWs, h]

/-- Scanning a rendered plain string body recovers it and stops at the
closing quote. -/
theorem parseStrChars_plain (l : List Char) (h : ∀ c ∈ l, plainChar c)
    (rest : List Char) : parseStrChars (l ++ quoteC :: rest) = some (l, rest) := by
  induction l with
  | nil =>
    rw [List.nil_append, parseStrChars.eq_def]
    simp
  | cons c r ih =>
    obtain ⟨h1, h2, h3⟩ := h c (by simp)
    have hlt : ¬ c.toNat < 32 := by omega
    rw [List.cons_append, parseStrChars.eq_def]
    simp only [if_neg h1, if_neg h2, if_neg hlt]
    rw [ih (fun x hx => h x (by simp [hx]))]
    rfl

/-- The scanner on a rendered plain string literal. -/
theorem parseJsonValue_str (g : Nat) (t r : List Char) (h : ∀ c ∈ t, plainChar c) :
    parseJsonValue (g + 1) (quoteC :: (t ++ quoteC :: r))
      = some (.str (String.mk t), r) := by
  rw [parseJsonValue.eq_def]
  simp +decide [parseStrChars_plain t h]

/-- The scanner on the literal `null`. -/
theorem parseJsonValue_null_lit (g : Nat) (r : List Char) :
    parseJsonValue (g + 1) ('n' :: 'u' :: 'l' :: 'l' :: r) = some (.null, r) := by
  rw [parseJsonValue.eq_def]
  simp +decide

/-- The scanner on the literal `true`. -/
theorem parseJsonValue_true_lit (g : Nat) (r : List Char) :
    parseJsonValue (g + 1) ('t' :: 'r' :: 'u' :: 'e' :: r) = some (.bool true, r) := by
  rw [parseJsonValue.eq_def]
  simp +decide

/-- The scanner on the literal `false`. -/
theorem parseJsonValue_false_lit (g : Nat) (r : List Char) :
    parseJsonValue (g + 1) ('f' :: 'a' :: 'l' :: 's' :: 'e' :: r) = some (.bool false, r) := by
  rw [parseJsonValue.eq_def]
  simp +decide

/-- Scanning the rendered two-field state record: the first member's value
is a literal recognised by `hv1` (the scanner consumes it and nothing else),
the second member's value is a plain string. Helper for the round trip. -/
theorem parse_state_obj (f : Nat) (v1c : List Char) (v1 : Json) (t rest : List Char)
    (hp : ∀ c ∈ t, plainChar c)
    (hv1 : ∀ g : Nat, ∀ r : List Char, parseJsonValue (g + 1) (v1c ++ r) = some (v1, r))
    (hws : ∀ r : List Char, skipWs (v1c ++ r) = v1c ++ r) :
    parseJsonValue (f + 5)
      (braceL :: nlC :: spC :: spC :: quoteC ::
        (("last_available" : String).data ++ quoteC :: ':' :: spC ::
          (v1c ++ ',' :: nlC :: spC :: spC :: quoteC ::
            (("last_status_email_utc" : String).data ++ quoteC :: ':' :: spC :: quoteC ::
              (t ++ quoteC :: nlC :: braceR :: rest)))))
      = some (.obj (.cons "last_available" v1
          (.cons "last_status_email_utc" (.str (String.mk t)) .nil)), rest) := by
  have hkey1 : ∀ r : List Char,
      parseStrChars ('l' :: 'a' :: 's' :: 't' :: '_' :: 'a' :: 'v' :: 'a' :: 'i' :: 'l' ::
          'a' :: 'b' :: 'l' :: 'e' :: quoteC :: r)
        = some (['l', 'a', 's', 't', '_', 'a', 'v', 'a', 'i', 'l', 'a', 'b', 'l', 'e'], r) :=
    fun r => parseStrChars_plain
      ['l', 'a', 's', 't', '_', 'a', 'v', 'a', 'i', 'l', 'a', 'b', 'l', 'e'] (by decide) r
  have hkey2 : ∀ r : List Char,
      parseStrChars ('l' :: 'a' :: 's' :: 't' :: '_' :: 's' :: 't' :: 'a' :: 't' :: 'u' ::
          's' :: '_' :: 'e' :: 'm' :: 'a' :: 'i' :: 'l' :: '_' :: 'u' :: 't' :: 'c' ::
          quoteC :: r)
        = some (['l', 'a', 's', 't', '_', 's', 't', 'a', 't', 'u', 's', '_', 'e', 'm',
            'a', 'i', 'l', '_', 'u', 't', 'c'], r) :=
    fun r => parseStrChars_plain
      ['l', 'a', 's', 't', '_', 's', 't', 'a', 't', 'u', 's', '_', 'e', 'm',
        'a', 'i', 'l', '_', 'u', 't', 'c'] (by decide) r
  have hmk1 : String.mk ['l', 'a', 's', 't', '_', 'a', 'v', 'a', 'i', 'l', 'a', 'b', 'l', 'e']
      = "last_available" := rfl
  have hmk2 : String.mk ['l', 'a', 's', 't', '_', 's', 't', 'a', 't', 'u', 's', '_', 'e',
      'm', 'a', 'i', 'l', '_', 'u', 't', 'c'] = "last_status_email_utc" := rfl
  rw [parseJsonValue.eq_def]
  simp +decide [skipWs_ws, skipWs_not_ws, isJsonWs]
  rw [parseObjRest.eq_def]
  simp +decide
  rw [parseMembersRest.eq_def]
  simp +decide [hkey1, hmk1, skipWs_ws, skipWs_not_ws, isJsonWs, hws, hv1, setKV]
  rw [parseMembersRest.eq_def]
  simp +decide [hkey2, hmk2, skipWs_ws, skipWs_not_ws, isJsonWs,
    parseJsonValue_str _ t _ hp, setKV]

/-- Splitting the scanner's fuel budget for the state record's shape. -/
theorem fuel_split (n : Nat) : 3 * n + 40 = (3 * n + 35) + 5 := by omega

/-- Round trip of a two-field state record whose first value renders as
`v1c` and scans back as `v1`, and whose second value is a plain string. -/
theorem roundtrip_state_some (v1 : Json) (v1c : List Char) (t : String)
    (hp : ∀ c ∈ t.data, plainChar c)
    (hdump : dumpsVal 1 v1 = v1c)
    (hv1 : ∀ g : Nat, ∀ r : List Char, parseJsonValue (g + 1) (v1c ++ r) = some (v1, r))
    (hws : ∀ r : List Char, skipWs (v1c ++ r) = v1c ++ r) :
    load_state (some (save_state (.obj (.cons "last_available" v1
      (.cons "last_status_email_utc" (.str t) .nil))))) =
    .ok (.obj (.cons "last_available" v1
      (.cons "last_status_email_utc" (.str t) .nil))) := by
  have hshape : dumpsVal 0 (.obj (.cons "last_available" v1
      (.cons "last_status_email_utc" (.str t) .nil))) ++ [nlC]
      = braceL :: nlC :: spC :: spC :: quoteC ::
        (("last_available" : String).data ++ quoteC :: ':' :: spC ::
          (v1c ++ ',' :: nlC :: spC :: spC :: quoteC ::
            (("last_status_email_utc" : String).data ++ quoteC :: ':' :: spC :: quoteC ::
              (t.data ++ quoteC :: nlC :: braceR :: [nlC])))) := by
    simp +decide [dumpsVal, dumpsFields, joinSep, indentChars, quoteList,
      escapeChars_plain t.data hp, escapeChars, escapeChunk, hdump]
  have hjson : json_loads (save_state (.obj (.cons "last_available" v1
      (.cons "last_status_email_utc" (.str t) .nil))))
      = some (.obj (.cons "last_available" v1
        (.cons "last_status_email_utc" (.str t) .nil))) := by
    rw [save_state]
    unfold json_loads
    have hdata : ∀ L : List Char, (String.mk L).data = L := fun _ => rfl
    rw [hdata, hshape, fuel_split, skipWs_not_ws _ _ (by decide),
      parse_state_obj _ v1c v1 t.data [nlC] (by exact hp) hv1 hws]
    simp +decide [show String.mk t.data = t from rfl]
  simp only [load_state, hjson]

/-- C5: saving any state record and loading it back yields an equal record. -/
theorem c5_save_load_roundtrip (s : StockState)
    (h : ∀ t, s.last_status_email_utc = some t → ∀ c ∈ t.data, plainChar c) :
    load_state (some (save_state (encodeState s))) = .ok (encodeState s) := by
  obtain ⟨a, ts⟩ := s
  rcases ts with _ | t
  · rcases a with _ | b
    · rfl
    · rcases b with _ | _ <;> rfl
  · have hp : ∀ c ∈ t.data, plainChar c := h t rfl
    rcases a with _ | b
    · exact roundtrip_state_some .null ['n', 'u', 'l', 'l'] t hp rfl
        (fun g r => parseJsonValue_null_lit g r)
        (fun r => skipWs_not_ws 'n' _ (by decide))
    · rcases b with _ | _
      · exact roundtrip_state_some (.bool false) ['f', 'a', 'l', 's', 'e'] t hp rfl
          (fun g r => parseJsonValue_false_lit g r)
          (fun r => skipWs_not_ws 'f' _ (by decide))
      · exact roundtrip_state_some (.bool true) ['t', 'r', 'u', 'e'] t hp rfl
          (fun g r => parseJsonValue_true_lit g r)
          (fun r => skipWs_not_ws 't' _ (by decide))

/-- Witness for C5 at a concrete record. -/
theorem c5_witness :
    load_state (some (save_state (encodeState
      ⟨some true, some "2024-01-01T12:00:00+00:00"⟩)))
      = .ok (encodeState ⟨some true, some "2024-01-01T12:00:00+00:00"⟩) :=
  c5_save_load_roundtrip ⟨some true, some "2024-01-01T12:00:00+00:00"⟩
    (by
      intro t ht c hc
      injection ht with hh
      subst hh
      revert c hc
      decide)
